import Mathlib

/-!
Verification of the per-guild playback queue and session state of the MusicBot
repository (src/main.py), as a shallow embedding in Lean.

Python strings are modelled as lists of characters, timestamps (time.time())
as integers, and external collaborators (Discord voice, Spotify, yt-dlp) as
oracle parameters.  Each definition mirrors one function or method of
src/main.py; line references are given in the doc comments.
-/

/-- Characters of a Python string. -/
abbrev Str := List Char

/-- Python str.lower(). -/
def lowerStr (s : Str) : Str := s.map Char.toLower

/-- Python substring membership test: `needle in hay` on strings. -/
def strIn (needle hay : Str) : Bool :=
  (List.range (hay.length + 1)).any (fun i => (hay.drop i).take needle.length == needle)

/-- collections.deque(maxlen := cap).append x: appends on the right and, when
the deque is full, silently drops the leftmost (oldest) element. -/
def pushRing {α : Type} (cap : Nat) (xs : List α) (x : α) : List α :=
  if xs.length < cap then xs ++ [x] else xs.drop (xs.length + 1 - cap) ++ [x]

/-- Spotify metadata attached to a Song (spotify_data dict; the only key the
core ever reads is 'spotify_url'). -/
structure SpotifyData where
  spotify_url : Str
deriving DecidableEq

/-- main.py Song (lines 185-196): description of one track plus the mutable
per-attempt retry counter.  `source` is the lazily attached resolved stream. -/
structure Song where
  title : Str
  artist : Str
  duration : Option Nat
  thumbnail : Option Str
  youtube_url : Str
  spotify_data : Option SpotifyData
  source : Option Unit
  retry_count : Nat
  max_retries : Nat
deriving DecidableEq

def unknownTitle : Str := "Unknown Title".toList

def unknownArtist : Str := "Unknown Artist".toList

/-- Song.__init__ (main.py lines 186-196): `title or "Unknown Title"`,
`artist or "Unknown Artist"`, source = None, retry_count = 0, max_retries = 2. -/
def Song.make (title artist : Str) (duration : Option Nat) (thumbnail : Option Str)
    (youtube_url : Str) (spotify_data : Option SpotifyData) : Song :=
  { title := if title = [] then unknownTitle else title
    artist := if artist = [] then unknownArtist else artist
    duration := duration
    thumbnail := thumbnail
    youtube_url := youtube_url
    spotify_data := spotify_data
    source := none
    retry_count := 0
    max_retries := 2 }

/-- A discord voice client handle, abstracted to what the core inspects:
is_connected() and the channel it is attached to. -/
structure VoiceClient where
  connected : Bool
  channel : Nat
deriving DecidableEq

/-- main.py EnhancedMusicQueue (lines 198-212): the per-guild session state. -/
structure EnhancedMusicQueue where
  queue : List Song
  current : Option Song
  is_playing : Bool
  voice_client : Option VoiceClient
  last_activity : ℤ
  connection_failures : Nat
  max_connection_failures : Nat
  autoplay_enabled : Bool
  last_played_songs : List Song
  autoplay_history : List Song
  autoplay_failures : Nat
  last_autoplay_attempt : ℤ
  max_autoplay_duration : Nat
deriving DecidableEq

/-- EnhancedMusicQueue.__init__ (lines 199-212); `now` is the value of
time.time() at construction. -/
def EnhancedMusicQueue.init (now : ℤ) : EnhancedMusicQueue :=
  { queue := []
    current := none
    is_playing := false
    voice_client := none
    last_activity := now
    connection_failures := 0
    max_connection_failures := 3
    autoplay_enabled := false
    last_played_songs := []
    autoplay_history := []
    autoplay_failures := 0
    last_autoplay_attempt := 0
    max_autoplay_duration := 300 }

/-- add_song (lines 214-216): append to the queue, refresh last_activity. -/
def EnhancedMusicQueue.add_song (mq : EnhancedMusicQueue) (song : Song) (now : ℤ) :
    EnhancedMusicQueue :=
  { mq with queue := mq.queue ++ [song], last_activity := now }

/-- get_next_song (lines 218-221): popleft, or None when the queue is empty. -/
def EnhancedMusicQueue.get_next_song (mq : EnhancedMusicQueue) :
    Option Song × EnhancedMusicQueue :=
  match mq.queue with
  | [] => (none, mq)
  | s :: rest => (some s, { mq with queue := rest })

/-- clear_queue (lines 223-225): empty the queue, refresh last_activity. -/
def EnhancedMusicQueue.clear_queue (mq : EnhancedMusicQueue) (now : ℤ) :
    EnhancedMusicQueue :=
  { mq with queue := [], last_activity := now }

/-- is_inactive (lines 227-228). -/
def EnhancedMusicQueue.is_inactive (mq : EnhancedMusicQueue) (timeout_minutes : Nat)
    (now : ℤ) : Bool :=
  decide (now - mq.last_activity > (timeout_minutes * 60 : ℤ))

/-- reset_connection_failures (lines 230-231). -/
def EnhancedMusicQueue.reset_connection_failures (mq : EnhancedMusicQueue) :
    EnhancedMusicQueue :=
  { mq with connection_failures := 0 }

/-- increment_connection_failures (lines 233-234). -/
def EnhancedMusicQueue.increment_connection_failures (mq : EnhancedMusicQueue) :
    EnhancedMusicQueue :=
  { mq with connection_failures := mq.connection_failures + 1 }

/-- should_give_up_connection (lines 236-237). -/
def EnhancedMusicQueue.should_give_up_connection (mq : EnhancedMusicQueue) : Bool :=
  decide (mq.connection_failures ≥ mq.max_connection_failures)

/-- One operation on the session queue: an enqueue (with the time.time() value
observed during it) or a dequeue. -/
inductive QOp
  | enq (s : Song) (t : ℤ)
  | deq
deriving DecidableEq

/-- Run a sequence of add_song / get_next_song operations, collecting every
value returned by get_next_song. -/
def runOps (mq : EnhancedMusicQueue) : List QOp → EnhancedMusicQueue × List (Option Song)
  | [] => (mq, [])
  | QOp.enq s t :: ops => runOps (mq.add_song s t) ops
  | QOp.deq :: ops =>
    let (o, mq1) := mq.get_next_song
    let (mq', outs) := runOps mq1 ops
    (mq', o :: outs)

/-- The songs enqueued by a sequence of operations, in order. -/
def enqueuedOf : List QOp → List Song
  | [] => []
  | QOp.enq s _ :: ops => s :: enqueuedOf ops
  | QOp.deq :: ops => enqueuedOf ops

/-- The songs actually delivered by the dequeues of a run. -/
def dequeuedOf (outs : List (Option Song)) : List Song := outs.filterMap id

/-- Observable events of connect_to_voice_channel: the start of connect
attempt i, and a sleep of the given number of seconds. -/
inductive ConnEv
  | attempt (i : Nat)
  | sleep (secs : Nat)
deriving DecidableEq

/-- One iteration of connect_to_voice_channel's try block (main.py lines
560-582).  `moveOk` is the outcome of an attempted move_to, `connOk` the
outcome of an attempted fresh connect; the first component is false when the
body raised (timeout or connection error). -/
def connectBody (target : Nat) (moveOk connOk : Bool) (mq : EnhancedMusicQueue) :
    Bool × EnhancedMusicQueue :=
  match mq.voice_client with
  | some vc =>
    if vc.connected then
      if vc.channel = target then (true, mq.reset_connection_failures)
      else if moveOk then
        (true, { mq.reset_connection_failures with
                  voice_client := some { connected := true, channel := target } })
      else (false, mq)
    else
      if connOk then
        (true, { mq.reset_connection_failures with
                  voice_client := some { connected := true, channel := target } })
      else (false, { mq with voice_client := none })
  | none =>
    if connOk then
      (true, { mq.reset_connection_failures with
                voice_client := some { connected := true, channel := target } })
    else (false, { mq with voice_client := none })

/-- connect_to_voice_channel (lines 556-612): `for attempt in range(3)` with
the body `connectBody`; a raised attempt increments the failure counter,
discards any half-open handle and — unless it was the final attempt — sleeps
2 ** attempt seconds; when all three attempts raise, return False with no
further sleep.  The three iterations of the range(3) loop are unrolled. -/
def connect_to_voice_channel (target : Nat) (moveO connO : Nat → Bool)
    (mq : EnhancedMusicQueue) : List ConnEv × Bool × EnhancedMusicQueue :=
  let (ok0, m1) := connectBody target (moveO 0) (connO 0) mq
  if ok0 then ([ConnEv.attempt 0], true, m1) else
  let s1 := { m1.increment_connection_failures with voice_client := none }
  let (ok1, m2) := connectBody target (moveO 1) (connO 1) s1
  if ok1 then
    ([ConnEv.attempt 0, ConnEv.sleep (2 ^ 0), ConnEv.attempt 1], true, m2)
  else
  let s2 := { m2.increment_connection_failures with voice_client := none }
  let (ok2, m3) := connectBody target (moveO 2) (connO 2) s2
  if ok2 then
    ([ConnEv.attempt 0, ConnEv.sleep (2 ^ 0), ConnEv.attempt 1,
      ConnEv.sleep (2 ^ 1), ConnEv.attempt 2], true, m3)
  else
    ([ConnEv.attempt 0, ConnEv.sleep (2 ^ 0), ConnEv.attempt 1,
      ConnEv.sleep (2 ^ 1), ConnEv.attempt 2], false,
      { m3.increment_connection_failures with voice_client := none })

/-- Observable events of play_next_song: entering LOADING for a song with its
retry_count at that moment, startup of playback, giving a song up after its
retry cap is exhausted, and the "queue finished" notice. -/
inductive PlayEv
  | loading (s : Song) (rc : Nat)
  | playing (s : Song)
  | giveUp (s : Song)
  | finished
deriving DecidableEq

/-- The per-song cross-resolution retry of play_next_song (lines 645-658):
`resolve s rc` tells whether loading the audio for s succeeds while
s.retry_count = rc; on failure the code increments retry_count while it is
below max_retries and re-enters loading, so with `left` retries remaining it
attempts retry counts rc, rc+1, …, rc+left. -/
def trySong (resolve : Song → Nat → Bool) (s : Song) :
    Nat → Nat → List PlayEv × Bool
  | 0, rc =>
    if resolve s rc then ([PlayEv.loading s rc, PlayEv.playing s], true)
    else ([PlayEv.loading s rc, PlayEv.giveUp s], false)
  | left + 1, rc =>
    if resolve s rc then ([PlayEv.loading s rc, PlayEv.playing s], true)
    else
      let (evs, ok) := trySong resolve s left (rc + 1)
      (PlayEv.loading s rc :: evs, ok)

/-- The skip-to-next recursion of play_next_song (lines 670-673): when a song
exhausts its retry cap it is given up and the next queued song is attempted;
an empty queue after a give-up stops silently (is_playing = False, line 675). -/
def driveQueue (resolve : Song → Nat → Bool) : List Song → List PlayEv
  | [] => []
  | s :: rest =>
    let (evs, ok) := trySong resolve s (s.max_retries - s.retry_count) s.retry_count
    if ok then evs else evs ++ driveQueue resolve rest

/-- play_next_song (lines 614-724): pop current from the queue if absent; if
there is nothing to play emit the "queue finished" notice (lines 618-629);
otherwise load with per-song retries, skipping to later queued songs as songs
exhaust their caps. -/
def play_next_song (resolve : Song → Nat → Bool) (cur : Option Song)
    (queue : List Song) : List PlayEv :=
  match cur, queue with
  | none, [] => [PlayEv.finished]
  | none, s :: rest => driveQueue resolve (s :: rest)
  | some s, q => driveQueue resolve (s :: q)

/-- A fresh Song used as concrete witness input. -/
def wSongA : Song :=
  Song.make "a".toList "x".toList (some 100) none "urlA".toList none

/-- A second fresh Song used as concrete witness input. -/
def wSongB : Song :=
  Song.make "b".toList "y".toList (some 100) none "urlB".toList none

/-- A resolver oracle on which every load attempt fails. -/
def failResolve : Song → Nat → Bool := fun _ _ => false

/-- One track record returned by spotify.recommendations (the fields the code
reads: track['name'], track['artists'] — guaranteed non-empty by the API, split
as first artist plus the rest — track['duration_ms'], album art, and
track['external_urls']['spotify']). -/
structure SpTrack where
  name : Str
  artist0 : Str
  restArtists : List Str
  duration_ms : Nat
  thumbnail : Option Str
  spotify_url : Str
deriving DecidableEq

/-- One entry of a yt-dlp multi-result search (the .get fields the code reads;
none models a missing key, and for duration also a present-but-None value —
result.get('duration', 0) makes a missing key behave as 0). -/
structure YtResult where
  title : Option Str
  uploader : Option Str
  webpage_url : Option Str
  duration : Option Nat
  thumbnail : Option Str
deriving DecidableEq

/-- Python `', '.join([artist0] ++ rest)`. -/
def joinArtists (artist0 : Str) (rest : List Str) : Str :=
  artist0 ++ (rest.map (fun a => ',' :: ' ' :: a)).flatten

/-- spotify_url.split('/')[-1].split('?')[0] (line 447). -/
def extractTrackId (url : Str) : Str :=
  (((url.splitOn '/').getLastD []).splitOn '?').headD []

/-- The Spotify-strategy duplicate test (lines 464-469): the lowercased track
title is a substring of a history title and the lowercased first artist is a
substring of that history entry's artist. -/
def spIsDuplicate (history : List Song) (trackTitle trackArtist : Str) : Bool :=
  history.any (fun h =>
    strIn trackTitle (lowerStr h.title) && strIn trackArtist (lowerStr h.artist))

/-- The per-track loop of the Spotify recommendation strategy (lines 456-484):
cap the count at max_songs, skip tracks longer than MAX_DURATION, skip
duplicates of autoplay history (case-insensitive substring on title and first
artist), resolve a YouTube url (ytSearch oracle) and construct a Song. -/
def spLoop (history : List Song) (ytSearch : Str → Option Str)
    (maxSongs maxDur : Nat) : List SpTrack → List Song → List Song
  | [], recs => recs
  | t :: ts, recs =>
    if maxSongs ≤ recs.length then recs
    else
      let trackDuration := t.duration_ms / 1000
      if maxDur < trackDuration then spLoop history ytSearch maxSongs maxDur ts recs
      else
        if spIsDuplicate history (lowerStr t.name) (lowerStr t.artist0)
        then spLoop history ytSearch maxSongs maxDur ts recs
        else
          match ytSearch (t.name ++ [' '] ++ t.artist0) with
          | none => spLoop history ytSearch maxSongs maxDur ts recs
          | some yurl =>
            spLoop history ytSearch maxSongs maxDur ts
              (recs ++ [Song.make t.name (joinArtists t.artist0 t.restArtists)
                (some trackDuration) t.thumbnail yurl (some ⟨t.spotify_url⟩)])

/-- The Spotify strategy of get_autoplay_recommendations (lines 441-490):
guarded by spotify being configured, the seed song carrying spotify_data, and
room under max_songs; then by a non-empty spotify_url whose extracted track id
has length 22.  spRecs is the spotify.recommendations provider call; an error
result is the caught per-provider exception (lines 486-490), yielding no songs
from this strategy. -/
def spotifyBranch (last : Song) (history : List Song) (spAvail : Bool)
    (spRecs : Except Unit (List SpTrack)) (ytSearch : Str → Option Str)
    (maxSongs maxDur : Nat) : List Song :=
  match last.spotify_data with
  | none => []
  | some sd =>
    if spAvail && decide (0 < maxSongs) then
      if sd.spotify_url ≠ [] then
        let trackId := extractTrackId sd.spotify_url
        if trackId ≠ [] ∧ trackId.length = 22 then
          match spRecs with
          | Except.error _ => []
          | Except.ok tracks => spLoop history ytSearch maxSongs maxDur tracks []
        else []
      else []
    else []

/-- Python str.strip(). -/
def stripStr (s : Str) : Str :=
  ((s.dropWhile Char.isWhitespace).reverse.dropWhile Char.isWhitespace).reverse

/-- last_song.artist.split(',')[0].strip() (line 494). -/
def firstArtistName (artist : Str) : Str :=
  stripStr (artist.takeWhile (fun c => c ≠ ','))

/-- The four fallback search queries of the YouTube-only strategy
(lines 496-501). -/
def ytQueries (last : Song) : List Str :=
  let artistName := firstArtistName last.artist
  [artistName ++ " lagu terbaru".toList,
   artistName ++ " lagu populer".toList,
   last.title ++ " remix".toList,
   "musik ".toList ++ artistName]

/-- The YouTube-strategy duration filter (line 520): `duration and
duration > MAX_DURATION` — a missing/None or zero duration is falsy and never
filtered. -/
def ytDurTooLong (maxDur : Nat) : Option Nat → Bool
  | none => false
  | some n => (n != 0) && decide (maxDur < n)

/-- The YouTube-strategy duplicate test (lines 523-528): title substring
overlap with a history entry in either direction, identical webpage url, or
title equal to the seed song's title. -/
def ytIsDuplicate (last : Song) (history : List Song) (title webpageUrl : Str) : Bool :=
  history.any (fun h =>
    (strIn (lowerStr title) (lowerStr h.title) ||
     strIn (lowerStr h.title) (lowerStr title)) ||
    h.youtube_url == webpageUrl ||
    lowerStr title == lowerStr last.title)

/-- The per-result loop of the YouTube strategy (lines 511-538): cap the
count, apply .get defaults, skip results with a truthy duration above
MAX_DURATION, skip duplicates, and require a non-empty webpage url. -/
def ytInner (last : Song) (history : List Song) (maxSongs maxDur : Nat) :
    List YtResult → List Song → List Song
  | [], recs => recs
  | r :: rs, recs =>
    if maxSongs ≤ recs.length then recs
    else
      let title := r.title.getD unknownTitle
      let artist := r.uploader.getD unknownArtist
      let webpageUrl := r.webpage_url.getD []
      if ytDurTooLong maxDur r.duration then ytInner last history maxSongs maxDur rs recs
      else
        if !ytIsDuplicate last history title webpageUrl && webpageUrl ≠ [] then
          ytInner last history maxSongs maxDur rs
            (recs ++ [Song.make title artist r.duration r.thumbnail webpageUrl none])
        else ytInner last history maxSongs maxDur rs recs

/-- The per-query loop of the YouTube strategy (lines 503-542): for each
fallback query, while under max_songs, ask the multi-result search oracle for
max_songs - len(recommendations) entries; a per-query error (timeout or search
failure) is caught and skips to the next query. -/
def ytLoop (last : Song) (history : List Song) (maxSongs maxDur : Nat)
    (ytMulti : Str → Nat → Except Unit (List YtResult)) :
    List Str → List Song → List Song
  | [], recs => recs
  | q :: qs, recs =>
    if maxSongs ≤ recs.length then recs
    else
      match ytMulti q (maxSongs - recs.length) with
      | Except.error _ => ytLoop last history maxSongs maxDur ytMulti qs recs
      | Except.ok results =>
        ytLoop last history maxSongs maxDur ytMulti qs
          (ytInner last history maxSongs maxDur results recs)

/-- get_autoplay_recommendations (lines 435-553): run the Spotify strategy,
then — if still under max_songs and yt-dlp is configured — the YouTube-only
strategy over the four fallback queries, and finally append every produced
song to the autoplay_history ring (capacity 20).  Returns the recommendation
list together with the updated history. -/
def get_autoplay_recommendations (last : Song) (history : List Song)
    (spAvail : Bool) (spRecs : Except Unit (List SpTrack))
    (ytSearch : Str → Option Str) (ytdlAvail : Bool)
    (ytMulti : Str → Nat → Except Unit (List YtResult))
    (maxSongs maxDur : Nat) : List Song × List Song :=
  let recs1 := spotifyBranch last history spAvail spRecs ytSearch maxSongs maxDur
  let recs2 :=
    if decide (recs1.length < maxSongs) && ytdlAvail then
      ytLoop last history maxSongs maxDur ytMulti (ytQueries last) recs1
    else recs1
  (recs2, recs2.foldl (fun h s => pushRing 20 h s) history)

/-- The autoplay guard of play_next_in_queue (lines 732-734). -/
def autoplayEligible (mq : EnhancedMusicQueue) (now : ℤ) : Bool :=
  mq.autoplay_enabled && !mq.last_played_songs.isEmpty &&
    decide (mq.autoplay_failures < 3) &&
    decide (now - mq.last_autoplay_attempt > 30)

/-- play_next_in_queue (lines 726-783): pop the next song into current; on an
empty queue, attempt autoplay only under the guard; a non-empty recommendation
list resets autoplay_failures to 0 and enqueues every song, an empty one
increments autoplay_failures.  The Bool result records whether an autoplay
attempt was initiated. -/
def play_next_in_queue (mq0 : EnhancedMusicQueue) (now : ℤ)
    (spAvail : Bool) (spRecs : Except Unit (List SpTrack))
    (ytSearch : Str → Option Str) (ytdlAvail : Bool)
    (ytMulti : Str → Nat → Except Unit (List YtResult)) :
    EnhancedMusicQueue × Bool :=
  let (c, mq1) := mq0.get_next_song
  match c with
  | some s => ({ mq1 with current := some s }, false)
  | none =>
    let mq := { mq1 with current := none }
    if autoplayEligible mq now then
      let mq := { mq with last_autoplay_attempt := now }
      match mq.last_played_songs.getLast? with
      | none =>
        ({ mq with autoplay_failures := mq.autoplay_failures + 1,
                   is_playing := false }, true)
      | some lastSong =>
        let res := get_autoplay_recommendations lastSong mq.autoplay_history
          spAvail spRecs ytSearch ytdlAvail ytMulti 3 300
        let mq := { mq with autoplay_history := res.2 }
        match res.1 with
        | [] =>
          ({ mq with autoplay_failures := mq.autoplay_failures + 1,
                     is_playing := false }, true)
        | recs@(_ :: _) =>
          let mq := { mq with autoplay_failures := 0 }
          let mq := recs.foldl (fun m s => m.add_song s now) mq
          let (c2, mq2) := mq.get_next_song
          match c2 with
          | some s => ({ mq2 with current := some s }, true)
          | none => ({ mq2 with current := none, is_playing := false }, true)
    else
      ({ mq with is_playing := false }, false)

/-- The after_playing completion callback (lines 678-690): push current onto
the last_played_songs ring (capacity 5) when set, then clear current.  The
subsequent thread-safe re-entry into play_next_in_queue is a separate step. -/
def after_playing (mq : EnhancedMusicQueue) : EnhancedMusicQueue :=
  match mq.current with
  | some s =>
    { mq with last_played_songs := pushRing 5 mq.last_played_songs s,
              current := none }
  | none => { mq with current := none }

/-- A candidate whose normalized (case-insensitive) title+artist pair
duplicates an entry already in the given history. -/
def dupOfHistory (history : List Song) (s : Song) : Prop :=
  ∃ h ∈ history,
    lowerStr s.title = lowerStr h.title ∧ lowerStr s.artist = lowerStr h.artist

/-- The C5 safety predicate for one recommended song: it respects the duration
cap and does not duplicate an entry of the given history. -/
def recOk (history : List Song) (maxDur : Nat) (s : Song) : Prop :=
  (∀ n, s.duration = some n → n ≤ maxDur) ∧ ¬ dupOfHistory history s

/-- A concrete yt-dlp search entry used as witness input. -/
def wYtResult : YtResult :=
  { title := some "c".toList
    uploader := some "z".toList
    webpage_url := some "urlC".toList
    duration := some 100
    thumbnail := none }

/-- A multi-search oracle returning one good entry for every query. -/
def wYtMulti : Str → Nat → Except Unit (List YtResult) :=
  fun _ _ => Except.ok [wYtResult]

/-- A single-search oracle that never finds anything. -/
def wYtSearch : Str → Option Str := fun _ => none

/-- An empty Spotify recommendation result. -/
def wSpRecs : Except Unit (List SpTrack) := Except.ok []

/-- The Song the witness oracles produce. -/
def wSongC : Song :=
  Song.make "c".toList "z".toList (some 100) none "urlC".toList none

/-- A concrete eligible session: empty queue, autoplay on, one song played,
no failures, last attempt at time 0. -/
def wMqEligible : EnhancedMusicQueue :=
  { EnhancedMusicQueue.init 0 with
      autoplay_enabled := true
      last_played_songs := [wSongA] }

/-- The ring-capacity invariant of C6: last_played_songs was created with
maxlen 5 and autoplay_history with maxlen 20. -/
def ringsOk (mq : EnhancedMusicQueue) : Prop :=
  mq.last_played_songs.length ≤ 5 ∧ mq.autoplay_history.length ≤ 20

/-- Every state-mutating operation of the core, as a step relation on
sessions. -/
inductive QueueStep : EnhancedMusicQueue → EnhancedMusicQueue → Prop
  | addSong (mq : EnhancedMusicQueue) (s : Song) (t : ℤ) :
      QueueStep mq (mq.add_song s t)
  | getNext (mq : EnhancedMusicQueue) : QueueStep mq (mq.get_next_song).2
  | clearQ (mq : EnhancedMusicQueue) (t : ℤ) : QueueStep mq (mq.clear_queue t)
  | resetCF (mq : EnhancedMusicQueue) : QueueStep mq mq.reset_connection_failures
  | incCF (mq : EnhancedMusicQueue) : QueueStep mq mq.increment_connection_failures
  | afterPlay (mq : EnhancedMusicQueue) : QueueStep mq (after_playing mq)
  | connect (mq : EnhancedMusicQueue) (target : Nat) (moveO connO : Nat → Bool) :
      QueueStep mq (connect_to_voice_channel target moveO connO mq).2.2
  | nextInQueue (mq : EnhancedMusicQueue) (now : ℤ) (spAvail : Bool)
      (spRecs : Except Unit (List SpTrack)) (ytSearch : Str → Option Str)
      (ytdlAvail : Bool) (ytMulti : Str → Nat → Except Unit (List YtResult)) :
      QueueStep mq
        (play_next_in_queue mq now spAvail spRecs ytSearch ytdlAvail ytMulti).1

/-- Python int() truncation toward zero on a rational. -/
def truncQ (q : ℚ) : Int := if q ≥ 0 then ⌊q⌋ else ⌈q⌉

/-- Outcome of the volume command. -/
inductive VolumeOutcome
  | noMusic
  | reportVol (percent : Int)
  | rejected
  | accepted
deriving DecidableEq

/-- The volume command (lines 1400-1456): `hasActive` abstracts "voice_client
and current and current.source are all set"; `gain` is the active source's
current PCMVolumeTransformer gain factor; `arg` is the parsed integer
argument, None for the read form.  Out-of-range values are rejected with the
gain untouched; in-range values set the gain to volume / 100.0. -/
def volume (hasActive : Bool) (gain : ℚ) (arg : Option Int) :
    VolumeOutcome × ℚ :=
  if !hasActive then (VolumeOutcome.noMusic, gain)
  else
    match arg with
    | none => (VolumeOutcome.reportVol (truncQ (gain * 100)), gain)
    | some v =>
      if v < 0 ∨ v > 200 then (VolumeOutcome.rejected, gain)
      else (VolumeOutcome.accepted, (v : ℚ) / 100)

/-- RetryConfig (lines 119-123): the {max attempts, delay, backoff} bundle. -/
structure RetryConfig where
  max_attempts : Nat
  delay : ℚ
  backoff : ℚ
deriving DecidableEq

/-- RetryConfig() with its declared defaults (line 120): 3 attempts, delay
1.0, backoff 2.0. -/
def RetryConfig.defaults : RetryConfig :=
  { max_attempts := 3, delay := 1, backoff := 2 }

/-- A Python heap of RetryConfig objects; a reference (object identity) is an
index into it. -/
structure PyHeap where
  configs : List RetryConfig
deriving DecidableEq

/-- Allocate a new RetryConfig object, returning the extended heap and the new
object's reference. -/
def allocConfig (h : PyHeap) (c : RetryConfig) : PyHeap × Nat :=
  ({ configs := h.configs ++ [c] }, h.configs.length)

/-- Python evaluates a default-argument expression once, at function
definition time: `def retry_async(func, config = RetryConfig(), ...)` (line
125) allocates ONE RetryConfig when the module loads, and every call that
omits config receives a reference to that same object. -/
def moduleInit : PyHeap × Nat :=
  allocConfig { configs := [] } RetryConfig.defaults

/-- Dereference a RetryConfig object. -/
def readConfig (h : PyHeap) (ref : Nat) : RetryConfig :=
  h.configs.getD ref RetryConfig.defaults

/-- The retry loop of retry_async (lines 129-138): attempts indexed from 0; a
local `delay` variable starts at config.delay and is multiplied by
config.backoff after each sleep; the final failed attempt raises with no
sleep.  Returns the result and the list of sleep durations. -/
def retryLoop (oracle : Nat → Except Unit Nat) (backoff : ℚ) :
    Nat → Nat → ℚ → Except Unit Nat × List ℚ
  | 0, _, _ => (Except.error (), [])
  | remaining + 1, i, delay =>
    match oracle i with
    | Except.ok v => (Except.ok v, [])
    | Except.error e =>
      match remaining with
      | 0 => (Except.error e, [])
      | r + 1 =>
        let (res, sleeps) :=
          retryLoop oracle backoff (r + 1) (i + 1) (delay * backoff)
        (res, delay :: sleeps)

/-- retry_async (lines 125-144): reads config.max_attempts, config.delay and
config.backoff, copies delay into a local variable, and never assigns any
attribute of the config object — so the heap it returns is the heap it was
given. -/
def retry_async (h : PyHeap) (ref : Nat) (oracle : Nat → Except Unit Nat) :
    (Except Unit Nat × List ℚ) × PyHeap :=
  (retryLoop oracle (readConfig h ref).backoff (readConfig h ref).max_attempts 0
    (readConfig h ref).delay, h)

/-- Two successive invocations of retry_async that both omit the config
argument: each receives the reference allocated at module load.  Returns the
pair of references the two calls received and the final heap. -/
def twoDefaultCalls (oa ob : Nat → Except Unit Nat) : (Nat × Nat) × PyHeap :=
  let (h0, r) := moduleInit
  let (_, h1) := retry_async h0 r oa
  let (_, h2) := retry_async h1 r ob
  ((r, r), h2)

/-- An oracle on which every attempt raises. -/
def failOracle : Nat → Except Unit Nat := fun _ => Except.error ()

theorem strIn_nil (hay : Str) : strIn [] hay = true := by
  unfold strIn
  rw [List.any_eq_true]
  exact ⟨0, List.mem_range.mpr (by omega), by simp⟩

theorem strIn_self (s : Str) : strIn s s = true := by
  simp [strIn]
  exact ⟨0, Nat.succ_pos _, by simp⟩

theorem strIn_append_right (s t : Str) : strIn s (s ++ t) = true := by
  simp [strIn]
  refine ⟨0, Nat.succ_pos _, ?_⟩
  simp [List.take_left]

theorem pushRing_length_le {α : Type} (cap : Nat) (hcap : 0 < cap) (xs : List α) (x : α)
    (h : xs.length ≤ cap) : (pushRing cap xs x).length ≤ cap := by
  unfold pushRing
  split
  · simpa using by omega
  · have hlen : xs.length = cap := by omega
    simp [hlen]
    omega

theorem pushRing_at_cap {α : Type} (cap : Nat) (xs : List α) (x : α)
    (h : xs.length = cap) : pushRing cap xs x = xs.drop 1 ++ [x] := by
  unfold pushRing
  split
  · omega
  · simp [h]

theorem runOps_spec (ops : List QOp) (mq : EnhancedMusicQueue) :
    dequeuedOf (runOps mq ops).2 ++ (runOps mq ops).1.queue =
      mq.queue ++ enqueuedOf ops := by
  induction ops generalizing mq with
  | nil => simp [runOps, dequeuedOf, enqueuedOf]
  | cons op ops ih =>
    cases op with
    | enq s t =>
      simp [runOps, enqueuedOf]
      rw [ih]
      simp [EnhancedMusicQueue.add_song]
    | deq =>
      cases hq : mq.queue with
      | nil =>
        simp [runOps, EnhancedMusicQueue.get_next_song, hq, dequeuedOf, enqueuedOf]
        have := ih mq
        simp [dequeuedOf] at this
        rw [this, hq]
        simp
      | cons s rest =>
        simp [runOps, EnhancedMusicQueue.get_next_song, hq, dequeuedOf, enqueuedOf]
        have := ih { mq with queue := rest }
        simp [dequeuedOf] at this
        rw [this]

/-- C1: for every sequence of add_song / get_next_song operations, the songs
delivered by get_next_song, followed by the songs still queued, are exactly the
initial queue followed by the enqueued songs in insertion order — so dequeues
are FIFO, deliver each enqueued song at most once and never a song that was not
enqueued; and get_next_song on an empty queue returns None. -/
theorem c1_fifo_queue :
    (∀ (mq : EnhancedMusicQueue) (ops : List QOp),
      dequeuedOf (runOps mq ops).2 ++ (runOps mq ops).1.queue =
        mq.queue ++ enqueuedOf ops) ∧
    (∀ mq : EnhancedMusicQueue,
      (EnhancedMusicQueue.get_next_song { mq with queue := [] }).1 = none) := by
  refine ⟨fun mq ops => runOps_spec ops mq, fun mq => rfl⟩

theorem connectBody_failures (target : Nat) (a b : Bool) (mq : EnhancedMusicQueue)
    (h : (connectBody target a b mq).1 = false) :
    (connectBody target a b mq).2.connection_failures = mq.connection_failures := by
  unfold connectBody at *
  rcases hvc : mq.voice_client with _ | vc <;> simp [hvc] at h ⊢
  · rcases b <;> simp_all
  · rcases hc : vc.connected <;> simp [hc] at h ⊢
    · rcases b <;> simp_all
    · rcases hch : decide (vc.channel = target) with _ | _ <;>
        rcases a <;> simp_all

/-- C3: every call of connect_to_voice_channel produces one of four outcome
shapes, each with at most 3 connect attempts: success on attempt 0, 1 or 2 —
with a sleep of exactly 2^i seconds after each failed non-final attempt i
(attempt 0 → 1s, attempt 1 → 2s) — or failure of all three attempts, in which
case there is no sleep after the final attempt, the failure counter has been
incremented once per failed attempt (three in total) and the half-open handle
has been discarded (voice_client = None). -/
theorem c3_connect_retry (target : Nat) (moveO connO : Nat → Bool)
    (mq : EnhancedMusicQueue) :
    ((connect_to_voice_channel target moveO connO mq).2.1 = true ∧
      ((connect_to_voice_channel target moveO connO mq).1 = [ConnEv.attempt 0] ∨
       (connect_to_voice_channel target moveO connO mq).1 =
         [ConnEv.attempt 0, ConnEv.sleep 1, ConnEv.attempt 1] ∨
       (connect_to_voice_channel target moveO connO mq).1 =
         [ConnEv.attempt 0, ConnEv.sleep 1, ConnEv.attempt 1,
          ConnEv.sleep 2, ConnEv.attempt 2])) ∨
    ((connect_to_voice_channel target moveO connO mq).2.1 = false ∧
      (connect_to_voice_channel target moveO connO mq).1 =
        [ConnEv.attempt 0, ConnEv.sleep 1, ConnEv.attempt 1,
         ConnEv.sleep 2, ConnEv.attempt 2] ∧
      (connect_to_voice_channel target moveO connO mq).2.2.connection_failures =
        mq.connection_failures + 3 ∧
      (connect_to_voice_channel target moveO connO mq).2.2.voice_client = none) := by
  rcases h0 : connectBody target (moveO 0) (connO 0) mq with ⟨ok0, m1⟩
  cases ok0 with
  | true =>
    left
    exact ⟨by simp [connect_to_voice_channel, h0],
      Or.inl (by simp [connect_to_voice_channel, h0])⟩
  | false =>
    have hm1 : m1.connection_failures = mq.connection_failures := by
      have := connectBody_failures target (moveO 0) (connO 0) mq (by rw [h0])
      rwa [h0] at this
    rcases h1 : connectBody target (moveO 1) (connO 1)
        { m1.increment_connection_failures with voice_client := none } with ⟨ok1, m2⟩
    cases ok1 with
    | true =>
      left
      exact ⟨by simp [connect_to_voice_channel, h0, h1],
        Or.inr (Or.inl (by simp [connect_to_voice_channel, h0, h1]))⟩
    | false =>
      have hm2 : m2.connection_failures = mq.connection_failures + 1 := by
        have := connectBody_failures target (moveO 1) (connO 1)
          { m1.increment_connection_failures with voice_client := none } (by rw [h1])
        rw [h1] at this
        simpa [EnhancedMusicQueue.increment_connection_failures, hm1] using this
      rcases h2 : connectBody target (moveO 2) (connO 2)
          { m2.increment_connection_failures with voice_client := none } with ⟨ok2, m3⟩
      cases ok2 with
      | true =>
        left
        exact ⟨by simp [connect_to_voice_channel, h0, h1, h2],
          Or.inr (Or.inr (by simp [connect_to_voice_channel, h0, h1, h2]))⟩
      | false =>
        have hm3 : m3.connection_failures = mq.connection_failures + 2 := by
          have := connectBody_failures target (moveO 2) (connO 2)
            { m2.increment_connection_failures with voice_client := none } (by rw [h2])
          rw [h2] at this
          simpa [EnhancedMusicQueue.increment_connection_failures, hm2] using this
        right
        refine ⟨by simp [connect_to_voice_channel, h0, h1, h2],
          by simp [connect_to_voice_channel, h0, h1, h2], ?_,
          by simp [connect_to_voice_channel, h0, h1, h2]⟩
        have hred : (connect_to_voice_channel target moveO connO mq).2.2 =
            { m3.increment_connection_failures with voice_client := none } := by
          simp [connect_to_voice_channel, h0, h1, h2]
        rw [hred]
        simp [EnhancedMusicQueue.increment_connection_failures, hm3]

theorem trySong_loading_bound (resolve : Song → Nat → Bool) (s : Song) :
    ∀ (left rc : Nat) (s' : Song) (rc' : Nat),
      PlayEv.loading s' rc' ∈ (trySong resolve s left rc).1 →
        s' = s ∧ rc ≤ rc' ∧ rc' ≤ rc + left := by
  intro left
  induction left with
  | zero =>
    intro rc s' rc' hmem
    unfold trySong at hmem
    split at hmem <;>
      (simp at hmem; rcases hmem with ⟨h1, h2⟩ | h3) <;> simp_all
  | succ l ih =>
    intro rc s' rc' hmem
    unfold trySong at hmem
    split at hmem
    · simp at hmem
      rcases hmem with ⟨h1, h2⟩ | h3 <;> simp_all
    · simp at hmem
      rcases hmem with ⟨h1, h2⟩ | h3
      · simp_all
      · obtain ⟨hse, hlo, hhi⟩ := ih (rc + 1) s' rc' (by
          rcases htr : trySong resolve s l (rc + 1) with ⟨evs, ok⟩
          rw [htr] at h3
          simpa using h3)
        exact ⟨hse, by omega, by omega⟩

theorem driveQueue_loading_mem (resolve : Song → Nat → Bool) :
    ∀ (queue : List Song) (s' : Song) (rc' : Nat),
      PlayEv.loading s' rc' ∈ driveQueue resolve queue → s' ∈ queue := by
  intro queue
  induction queue with
  | nil => intro s' rc' h; simp [driveQueue] at h
  | cons s rest ih =>
    intro s' rc' h
    unfold driveQueue at h
    rcases htr : trySong resolve s (s.max_retries - s.retry_count) s.retry_count
      with ⟨evs, ok⟩
    rw [htr] at h
    cases ok with
    | true =>
      simp at h
      have := trySong_loading_bound resolve s _ _ s' rc' (by rw [htr]; exact h)
      simp [this.1]
    | false =>
      simp at h
      rcases h with h | h
      · have := trySong_loading_bound resolve s _ _ s' rc' (by rw [htr]; exact h)
        simp [this.1]
      · exact List.mem_cons_of_mem _ (ih s' rc' h)

theorem driveQueue_loading_bound (resolve : Song → Nat → Bool) :
    ∀ (queue : List Song),
      (∀ s ∈ queue, s.retry_count ≤ s.max_retries) →
      ∀ (s' : Song) (rc' : Nat),
        PlayEv.loading s' rc' ∈ driveQueue resolve queue → rc' ≤ s'.max_retries := by
  intro queue
  induction queue with
  | nil => intro _ s' rc' h; simp [driveQueue] at h
  | cons s rest ih =>
    intro hwf s' rc' h
    unfold driveQueue at h
    rcases htr : trySong resolve s (s.max_retries - s.retry_count) s.retry_count
      with ⟨evs, ok⟩
    rw [htr] at h
    have hs : s.retry_count ≤ s.max_retries := hwf s (by simp)
    cases ok with
    | true =>
      simp at h
      have hb := trySong_loading_bound resolve s _ _ s' rc' (by rw [htr]; exact h)
      rcases hb with ⟨rfl, _, hup⟩
      omega
    | false =>
      simp at h
      rcases h with h | h
      · have hb := trySong_loading_bound resolve s _ _ s' rc' (by rw [htr]; exact h)
        rcases hb with ⟨rfl, _, hup⟩
        omega
      · exact ih (fun x hx => hwf x (List.mem_cons_of_mem _ hx)) s' rc' h

theorem trySong_all_fail (resolve : Song → Nat → Bool) (s : Song)
    (hfail : ∀ k, resolve s k = false) :
    trySong resolve s 2 0 =
      ([PlayEv.loading s 0, PlayEv.loading s 1, PlayEv.loading s 2,
        PlayEv.giveUp s], false) := by
  simp [trySong, hfail]

/-- C2: (1) whenever every involved song starts with retry_count ≤ max_retries
(as all do at construction: 0 ≤ 2), no loading attempt of play_next_song ever
runs a song at a retry count above its max_retries cap; (2) once a fresh song
(retry_count 0, max_retries 2) has failed resolution at retry counts 0, 1 and 2,
it is given up: the driver emits exactly those three loading attempts followed
by giveUp, then continues with the remaining queue — so the session advances to
the next queued song, and the given-up song instance is never loaded again. -/
theorem c2_song_retry_cap :
    (∀ (resolve : Song → Nat → Bool) (cur : Option Song) (queue : List Song),
      (∀ s ∈ queue, s.retry_count ≤ s.max_retries) →
      (∀ s, cur = some s → s.retry_count ≤ s.max_retries) →
      ∀ (s' : Song) (rc' : Nat),
        PlayEv.loading s' rc' ∈ play_next_song resolve cur queue →
          rc' ≤ s'.max_retries) ∧
    (∀ (resolve : Song → Nat → Bool) (s : Song) (rest : List Song),
      s.retry_count = 0 → s.max_retries = 2 → (∀ k, resolve s k = false) →
      driveQueue resolve (s :: rest) =
        [PlayEv.loading s 0, PlayEv.loading s 1, PlayEv.loading s 2,
         PlayEv.giveUp s] ++ driveQueue resolve rest ∧
      (s ∉ rest → ∀ rc, PlayEv.loading s rc ∉ driveQueue resolve rest)) := by
  constructor
  · intro resolve cur queue hq hc s' rc' hmem
    cases cur with
    | none =>
      cases queue with
      | nil => simp [play_next_song] at hmem
      | cons s rest =>
        exact driveQueue_loading_bound resolve (s :: rest) hq s' rc' hmem
    | some s =>
      have hwf : ∀ x ∈ s :: queue, x.retry_count ≤ x.max_retries := by
        intro x hx
        rcases List.mem_cons.mp hx with rfl | hx'
        · exact hc x rfl
        · exact hq x hx'
      exact driveQueue_loading_bound resolve (s :: queue) hwf s' rc'
        (by simpa [play_next_song] using hmem)
  · intro resolve s rest hrc hmr hfail
    constructor
    · have h20 : s.max_retries - s.retry_count = 2 := by omega
      conv_lhs => rw [driveQueue]
      rw [h20, hrc, trySong_all_fail resolve s hfail]
      rfl
    · intro hnot rc hmem
      exact hnot (driveQueue_loading_mem resolve rest s rc hmem)

/-- Witness for c2_song_retry_cap at the concrete all-failing resolver with
two fresh songs. -/
theorem c2_song_retry_cap_witness :
    2 ≤ wSongA.max_retries ∧
    driveQueue failResolve (wSongA :: [wSongB]) =
      [PlayEv.loading wSongA 0, PlayEv.loading wSongA 1, PlayEv.loading wSongA 2,
       PlayEv.giveUp wSongA] ++ driveQueue failResolve [wSongB] ∧
    PlayEv.loading wSongA 1 ∉ driveQueue failResolve [wSongB] := by
  refine ⟨?_, ?_, ?_⟩
  · exact c2_song_retry_cap.1 failResolve (some wSongA) [wSongB]
      (by decide) (fun s h => by cases h; decide) wSongA 2 (by decide)
  · exact (c2_song_retry_cap.2 failResolve wSongA [wSongB]
      (by decide) (by decide) (fun k => rfl)).1
  · exact (c2_song_retry_cap.2 failResolve wSongA [wSongB]
      (by decide) (by decide) (fun k => rfl)).2 (by decide) 1

theorem any_eq_false_forall {α : Type} (p : α → Bool) (l : List α)
    (h : l.any p = false) : ∀ x ∈ l, p x = false := by
  intro x hx
  by_contra hne
  have : p x = true := by
    cases hpx : p x with
    | true => rfl
    | false => exact absurd hpx hne
  have : l.any p = true := List.any_eq_true.mpr ⟨x, hx, this⟩
  simp [h] at this

theorem spNew_recOk (history : List Song) (maxDur : Nat) (t : SpTrack) (yurl : Str)
    (hdur : ¬ maxDur < t.duration_ms / 1000)
    (hany : spIsDuplicate history (lowerStr t.name) (lowerStr t.artist0) = false) :
    recOk history maxDur
      (Song.make t.name (joinArtists t.artist0 t.restArtists)
        (some (t.duration_ms / 1000)) t.thumbnail yurl (some ⟨t.spotify_url⟩)) := by
  constructor
  · intro n hn
    simp [Song.make] at hn
    omega
  · rintro ⟨h, hmem, htitle, hartist⟩
    have hfh := any_eq_false_forall _ _ hany h hmem
    simp [Song.make] at htitle hartist
    have hT : strIn (lowerStr t.name) (lowerStr h.title) = true := by
      by_cases hnm : t.name = []
      · simp [hnm, lowerStr, strIn_nil]
      · rw [if_neg hnm] at htitle
        rw [← htitle]
        exact strIn_self _
    have hA : strIn (lowerStr t.artist0) (lowerStr h.artist) = true := by
      by_cases hj : joinArtists t.artist0 t.restArtists = []
      · have h0 : t.artist0 = [] := by
          unfold joinArtists at hj
          exact List.append_eq_nil.mp hj |>.1
        simp [h0, lowerStr, strIn_nil]
      · rw [if_neg hj] at hartist
        rw [← hartist]
        unfold joinArtists
        unfold lowerStr
        rw [List.map_append]
        exact strIn_append_right _ _
    simp [hT, hA] at hfh

theorem ytNew_recOk (last : Song) (history : List Song) (maxDur : Nat)
    (r : YtResult)
    (hdur : ∀ n, r.duration = some n → n ≤ maxDur)
    (hany : ytIsDuplicate last history (r.title.getD unknownTitle)
      (r.webpage_url.getD []) = false) :
    recOk history maxDur
      (Song.make (r.title.getD unknownTitle) (r.uploader.getD unknownArtist)
        r.duration r.thumbnail (r.webpage_url.getD []) none) := by
  constructor
  · intro n hn
    simp [Song.make] at hn
    exact hdur n hn
  · rintro ⟨h, hmem, htitle, _⟩
    have hfh := any_eq_false_forall _ _ hany h hmem
    simp [Song.make] at htitle
    have hT : strIn (lowerStr (r.title.getD unknownTitle)) (lowerStr h.title) = true := by
      by_cases hnm : r.title.getD unknownTitle = []
      · simp [hnm, lowerStr, strIn_nil]
      · rw [if_neg hnm] at htitle
        rw [← htitle]
        exact strIn_self _
    simp [hT] at hfh

theorem spLoop_sound (history : List Song) (ytSearch : Str → Option Str)
    (maxSongs maxDur : Nat) :
    ∀ (ts : List SpTrack) (recs : List Song),
      recs.length ≤ maxSongs → (∀ s ∈ recs, recOk history maxDur s) →
      (spLoop history ytSearch maxSongs maxDur ts recs).length ≤ maxSongs ∧
      ∀ s ∈ spLoop history ytSearch maxSongs maxDur ts recs,
        recOk history maxDur s := by
  intro ts
  induction ts with
  | nil =>
    intro recs h1 h2
    unfold spLoop
    exact ⟨h1, h2⟩
  | cons t ts ih =>
    intro recs h1 h2
    by_cases hfull : maxSongs ≤ recs.length
    · unfold spLoop
      simp only [if_pos hfull]
      exact ⟨h1, h2⟩
    · by_cases hdur : maxDur < t.duration_ms / 1000
      · unfold spLoop
        simp only [if_neg hfull, if_pos hdur]
        exact ih recs h1 h2
      · cases hany : spIsDuplicate history (lowerStr t.name) (lowerStr t.artist0) with
        | true =>
          unfold spLoop
          simp only [if_neg hfull, if_neg hdur, hany, if_pos]
          exact ih recs h1 h2
        | false =>
          cases hys : ytSearch (t.name ++ [' '] ++ t.artist0) with
          | none =>
            unfold spLoop
            simp only [if_neg hfull, if_neg hdur, hany, hys]
            exact ih recs h1 h2
          | some yurl =>
            unfold spLoop
            simp only [if_neg hfull, if_neg hdur, hany, hys]
            apply ih
            · simp
              omega
            · intro s hs
              rcases List.mem_append.mp hs with hs' | hs'
              · exact h2 s hs'
              · have hseq : s = Song.make t.name (joinArtists t.artist0 t.restArtists)
                    (some (t.duration_ms / 1000)) t.thumbnail yurl
                    (some ⟨t.spotify_url⟩) := by simpa using hs'
                rw [hseq]
                exact spNew_recOk history maxDur t yurl hdur hany

theorem ytInner_sound (last : Song) (history : List Song) (maxSongs maxDur : Nat) :
    ∀ (rs : List YtResult) (recs : List Song),
      recs.length ≤ maxSongs → (∀ s ∈ recs, recOk history maxDur s) →
      (ytInner last history maxSongs maxDur rs recs).length ≤ maxSongs ∧
      ∀ s ∈ ytInner last history maxSongs maxDur rs recs,
        recOk history maxDur s := by
  intro rs
  induction rs with
  | nil =>
    intro recs h1 h2
    unfold ytInner
    exact ⟨h1, h2⟩
  | cons r rs ih =>
    intro recs h1 h2
    by_cases hfull : maxSongs ≤ recs.length
    · unfold ytInner
      simp only [if_pos hfull]
      exact ⟨h1, h2⟩
    · cases hlong : ytDurTooLong maxDur r.duration with
      | true =>
        unfold ytInner
        simp only [if_neg hfull, hlong, if_pos]
        exact ih recs h1 h2
      | false =>
        have hdurOK : ∀ n, r.duration = some n → n ≤ maxDur := by
          intro n hn
          rw [hn] at hlong
          unfold ytDurTooLong at hlong
          simp at hlong
          omega
        cases happ : (!ytIsDuplicate last history (r.title.getD unknownTitle)
            (r.webpage_url.getD []) && (r.webpage_url.getD [] ≠ ([] : Str) : Bool)) with
        | false =>
          unfold ytInner
          simp only [if_neg hfull, hlong]
          rw [if_neg (by simp [happ])]
          rw [if_neg (by rw [happ]; exact Bool.false_ne_true)]
          exact ih recs h1 h2
        | true =>
          have hany : ytIsDuplicate last history (r.title.getD unknownTitle)
              (r.webpage_url.getD []) = false := by
            have h' := happ
            simp only [Bool.and_eq_true] at h'
            simpa using h'.1
          unfold ytInner
          simp only [if_neg hfull, hlong]
          rw [if_neg (by simp [hlong])]
          rw [if_pos (by rw [happ])]
          apply ih
          · simp
            omega
          · intro s hs
            rcases List.mem_append.mp hs with hs' | hs'
            · exact h2 s hs'
            · have hseq : s = Song.make (r.title.getD unknownTitle)
                  (r.uploader.getD unknownArtist) r.duration r.thumbnail
                  (r.webpage_url.getD []) none := by simpa using hs'
              rw [hseq]
              exact ytNew_recOk last history maxDur r hdurOK hany

theorem ytLoop_sound (last : Song) (history : List Song) (maxSongs maxDur : Nat)
    (ytMulti : Str → Nat → Except Unit (List YtResult)) :
    ∀ (qs : List Str) (recs : List Song),
      recs.length ≤ maxSongs → (∀ s ∈ recs, recOk history maxDur s) →
      (ytLoop last history maxSongs maxDur ytMulti qs recs).length ≤ maxSongs ∧
      ∀ s ∈ ytLoop last history maxSongs maxDur ytMulti qs recs,
        recOk history maxDur s := by
  intro qs
  induction qs with
  | nil =>
    intro recs h1 h2
    unfold ytLoop
    exact ⟨h1, h2⟩
  | cons q qs ih =>
    intro recs h1 h2
    by_cases hfull : maxSongs ≤ recs.length
    · unfold ytLoop
      simp only [if_pos hfull]
      exact ⟨h1, h2⟩
    · cases hq : ytMulti q (maxSongs - recs.length) with
      | error e =>
        unfold ytLoop
        simp only [if_neg hfull, hq]
        exact ih recs h1 h2
      | ok results =>
        unfold ytLoop
        simp only [if_neg hfull, hq]
        have hinner := ytInner_sound last history maxSongs maxDur results recs h1 h2
        exact ih _ hinner.1 hinner.2

theorem spotifyBranch_sound (last : Song) (history : List Song) (spAvail : Bool)
    (spRecs : Except Unit (List SpTrack)) (ytSearch : Str → Option Str)
    (maxSongs maxDur : Nat) :
    (spotifyBranch last history spAvail spRecs ytSearch maxSongs maxDur).length ≤
      maxSongs ∧
    ∀ s ∈ spotifyBranch last history spAvail spRecs ytSearch maxSongs maxDur,
      recOk history maxDur s := by
  rcases hsd : last.spotify_data with _ | sd
  · simp [spotifyBranch, hsd, dupOfHistory, recOk]
  · by_cases hg : (spAvail && decide (0 < maxSongs)) = true
    · by_cases hurl : sd.spotify_url ≠ []
      · by_cases htid : extractTrackId sd.spotify_url ≠ [] ∧
            (extractTrackId sd.spotify_url).length = 22
        · cases spRecs with
          | error e =>
            have hred : spotifyBranch last history spAvail (Except.error e) ytSearch
                maxSongs maxDur = [] := by
              simp [spotifyBranch, hsd, hg, hurl, htid.1, htid.2]
            rw [hred]
            simp
          | ok tracks =>
            have hred : spotifyBranch last history spAvail (Except.ok tracks) ytSearch
                maxSongs maxDur =
                spLoop history ytSearch maxSongs maxDur tracks [] := by
              simp [spotifyBranch, hsd, hg, hurl, htid.1, htid.2]
            rw [hred]
            exact spLoop_sound history ytSearch maxSongs maxDur tracks []
              (by simp) (by simp)
        · have hred : spotifyBranch last history spAvail spRecs ytSearch
              maxSongs maxDur = [] := by
            simp only [spotifyBranch, hsd]
            rw [if_pos hg, if_pos hurl, if_neg htid]
          rw [hred]
          simp
      · have hred : spotifyBranch last history spAvail spRecs ytSearch
            maxSongs maxDur = [] := by
          simp only [spotifyBranch, hsd]
          rw [if_pos hg, if_neg hurl]
        rw [hred]
        simp
    · have hred : spotifyBranch last history spAvail spRecs ytSearch
          maxSongs maxDur = [] := by
        simp only [spotifyBranch, hsd]
        rw [if_neg hg]
      rw [hred]
      simp

/-- C5: with maxSongs = 3 and maxDuration = 300, the recommendation list
returned by get_autoplay_recommendations — over every seed song, history and
provider-result input — has at most 3 entries, contains no candidate whose
duration exceeds 300 seconds, and contains no candidate whose normalized
(case-insensitive) title+artist pair duplicates an entry already present in the
autoplay history at call time. -/
theorem c5_recommendation_bounds (last : Song) (history : List Song)
    (spAvail : Bool) (spRecs : Except Unit (List SpTrack))
    (ytSearch : Str → Option Str) (ytdlAvail : Bool)
    (ytMulti : Str → Nat → Except Unit (List YtResult)) :
    (get_autoplay_recommendations last history spAvail spRecs ytSearch
        ytdlAvail ytMulti 3 300).1.length ≤ 3 ∧
    (∀ s ∈ (get_autoplay_recommendations last history spAvail spRecs ytSearch
        ytdlAvail ytMulti 3 300).1, ∀ n, s.duration = some n → n ≤ 300) ∧
    (∀ s ∈ (get_autoplay_recommendations last history spAvail spRecs ytSearch
        ytdlAvail ytMulti 3 300).1, ¬ dupOfHistory history s) := by
  have hsp := spotifyBranch_sound last history spAvail spRecs ytSearch 3 300
  have hmain :
      (get_autoplay_recommendations last history spAvail spRecs ytSearch
        ytdlAvail ytMulti 3 300).1.length ≤ 3 ∧
      ∀ s ∈ (get_autoplay_recommendations last history spAvail spRecs ytSearch
        ytdlAvail ytMulti 3 300).1, recOk history 300 s := by
    unfold get_autoplay_recommendations
    by_cases hb : (decide ((spotifyBranch last history spAvail spRecs ytSearch
        3 300).length < 3) && ytdlAvail) = true
    · simp only [hb, if_pos]
      exact ytLoop_sound last history 3 300 ytMulti (ytQueries last) _ hsp.1 hsp.2
    · simp only [Bool.not_eq_true] at hb
      simp only [hb]
      exact ⟨hsp.1, hsp.2⟩
  refine ⟨hmain.1, ?_, ?_⟩
  · intro s hs
    exact (hmain.2 s hs).1
  · intro s hs
    exact (hmain.2 s hs).2

/-- Witness for c5_recommendation_bounds: the concrete oracles produce wSongC,
which is duplicate-free against the empty history and within the duration cap. -/
theorem c5_recommendation_bounds_witness :
    ¬ dupOfHistory [] wSongC ∧ (100 : Nat) ≤ 300 := by
  have h := c5_recommendation_bounds wSongA [] false wSpRecs wYtSearch true wYtMulti
  exact ⟨h.2.2 wSongC (by decide), h.2.1 wSongC (by decide) 100 (by decide)⟩

/-- C4: an autoplay attempt is initiated by play_next_in_queue only when, at
the empty-queue decision point, autoplay_enabled holds, last_played_songs is
non-empty, autoplay_failures < 3, and strictly more than 30 seconds have
elapsed since last_autoplay_attempt. -/
theorem c4_autoplay_guard (mq : EnhancedMusicQueue) (now : ℤ)
    (spAvail : Bool) (spRecs : Except Unit (List SpTrack))
    (ytSearch : Str → Option Str) (ytdlAvail : Bool)
    (ytMulti : Str → Nat → Except Unit (List YtResult))
    (hatt : (play_next_in_queue mq now spAvail spRecs ytSearch
      ytdlAvail ytMulti).2 = true) :
    mq.queue = [] ∧ mq.autoplay_enabled = true ∧ mq.last_played_songs ≠ [] ∧
    mq.autoplay_failures < 3 ∧ now - mq.last_autoplay_attempt > 30 := by
  rcases hq : mq.queue with _ | ⟨s, rest⟩
  · refine ⟨rfl, ?_⟩
    have helig : autoplayEligible { mq with current := none } now = true := by
      cases h : autoplayEligible { mq with current := none } now with
      | true => rfl
      | false =>
        exfalso
        simp only [hq] at h
        revert hatt
        simp [play_next_in_queue, EnhancedMusicQueue.get_next_song, hq, h]
    simp only [autoplayEligible, Bool.and_eq_true] at helig
    obtain ⟨⟨⟨h1, h2⟩, h3⟩, h4⟩ := helig
    refine ⟨by simpa using h1, ?_, by simpa using h3, by simpa using h4⟩
    intro hemp
    simp [hemp] at h2
  · exfalso
    revert hatt
    simp [play_next_in_queue, EnhancedMusicQueue.get_next_song, hq]

/-- Witness for c4_autoplay_guard at a concrete eligible session. -/
theorem c4_autoplay_guard_witness :
    wMqEligible.queue = [] ∧ wMqEligible.autoplay_enabled = true ∧
    wMqEligible.last_played_songs ≠ [] ∧ wMqEligible.autoplay_failures < 3 ∧
    (100 : ℤ) - wMqEligible.last_autoplay_attempt > 30 :=
  c4_autoplay_guard wMqEligible 100 false wSpRecs wYtSearch false wYtMulti
    (by decide)

theorem spotifyBranch_error (last : Song) (history : List Song) (e : Unit)
    (ytSearch : Str → Option Str) (maxSongs maxDur : Nat) :
    spotifyBranch last history true (Except.error e) ytSearch maxSongs maxDur
      = [] := by
  rcases hsd : last.spotify_data with _ | sd <;> simp [spotifyBranch, hsd]

theorem spotifyBranch_unavailable (last : Song) (history : List Song)
    (spRecs : Except Unit (List SpTrack)) (ytSearch : Str → Option Str)
    (maxSongs maxDur : Nat) :
    spotifyBranch last history false spRecs ytSearch maxSongs maxDur = [] := by
  rcases hsd : last.spotify_data with _ | sd <;> simp [spotifyBranch, hsd]

theorem foldl_add_song_fields (now : ℤ) :
    ∀ (recs : List Song) (mq : EnhancedMusicQueue),
      (recs.foldl (fun m s => m.add_song s now) mq).queue = mq.queue ++ recs ∧
      (recs.foldl (fun m s => m.add_song s now) mq).autoplay_failures =
        mq.autoplay_failures ∧
      (recs.foldl (fun m s => m.add_song s now) mq).last_played_songs =
        mq.last_played_songs ∧
      (recs.foldl (fun m s => m.add_song s now) mq).autoplay_history =
        mq.autoplay_history ∧
      (recs.foldl (fun m s => m.add_song s now) mq).current = mq.current := by
  intro recs
  induction recs with
  | nil => intro mq; simp
  | cons r rs ih =>
    intro mq
    simp only [List.foldl_cons]
    have h := ih (mq.add_song r now)
    simpa [EnhancedMusicQueue.add_song] using h

theorem add_song_queue (mq : EnhancedMusicQueue) (s : Song) (now : ℤ) :
    (mq.add_song s now).queue = mq.queue ++ [s] := rfl

theorem add_song_failures (mq : EnhancedMusicQueue) (s : Song) (now : ℤ) :
    (mq.add_song s now).autoplay_failures = mq.autoplay_failures := rfl

theorem add_song_current (mq : EnhancedMusicQueue) (s : Song) (now : ℤ) :
    (mq.add_song s now).current = mq.current := rfl

/-- C7: (1) an error from the Spotify recommendation provider is caught and
does not abort the overall attempt: the result is exactly what the remaining
(YouTube) strategy alone produces, the same as if Spotify were not configured;
(2) once play_next_in_queue initiates an autoplay attempt, an empty overall
recommendation result increments autoplay_failures by exactly 1, and a
non-empty result resets autoplay_failures to 0 and enqueues the new songs (the
first becomes current and the rest the new queue). -/
theorem c7_provider_error_isolation :
    (∀ (last : Song) (history : List Song) (e : Unit)
       (ytSearch : Str → Option Str) (ytdlAvail : Bool)
       (ytMulti : Str → Nat → Except Unit (List YtResult))
       (maxSongs maxDur : Nat) (ts : List SpTrack),
      get_autoplay_recommendations last history true (Except.error e) ytSearch
          ytdlAvail ytMulti maxSongs maxDur =
        get_autoplay_recommendations last history false (Except.ok ts) ytSearch
          ytdlAvail ytMulti maxSongs maxDur) ∧
    (∀ (mq : EnhancedMusicQueue) (now : ℤ) (spAvail : Bool)
       (spRecs : Except Unit (List SpTrack)) (ytSearch : Str → Option Str)
       (ytdlAvail : Bool) (ytMulti : Str → Nat → Except Unit (List YtResult))
       (lastSong : Song),
      mq.queue = [] →
      autoplayEligible { mq with current := none } now = true →
      mq.last_played_songs.getLast? = some lastSong →
      ((get_autoplay_recommendations lastSong mq.autoplay_history spAvail spRecs
          ytSearch ytdlAvail ytMulti 3 300).1 = [] →
        (play_next_in_queue mq now spAvail spRecs ytSearch ytdlAvail
          ytMulti).1.autoplay_failures = mq.autoplay_failures + 1) ∧
      ((get_autoplay_recommendations lastSong mq.autoplay_history spAvail spRecs
          ytSearch ytdlAvail ytMulti 3 300).1 ≠ [] →
        (play_next_in_queue mq now spAvail spRecs ytSearch ytdlAvail
          ytMulti).1.autoplay_failures = 0 ∧
        (play_next_in_queue mq now spAvail spRecs ytSearch ytdlAvail
          ytMulti).1.current =
          (get_autoplay_recommendations lastSong mq.autoplay_history spAvail
            spRecs ytSearch ytdlAvail ytMulti 3 300).1.head? ∧
        (play_next_in_queue mq now spAvail spRecs ytSearch ytdlAvail
          ytMulti).1.queue =
          (get_autoplay_recommendations lastSong mq.autoplay_history spAvail
            spRecs ytSearch ytdlAvail ytMulti 3 300).1.tail)) := by
  constructor
  · intro last history e ytSearch ytdlAvail ytMulti maxSongs maxDur ts
    unfold get_autoplay_recommendations
    rw [spotifyBranch_error last history e ytSearch maxSongs maxDur,
      spotifyBranch_unavailable last history (Except.ok ts) ytSearch maxSongs maxDur]
  · intro mq now spAvail spRecs ytSearch ytdlAvail ytMulti lastSong hq helig hlast
    simp only [hq] at helig
    constructor
    · intro hres
      simp [play_next_in_queue, EnhancedMusicQueue.get_next_song, hq, helig,
        hlast, hres]
    · intro hne
      rcases hres : (get_autoplay_recommendations lastSong mq.autoplay_history
          spAvail spRecs ytSearch ytdlAvail ytMulti 3 300).1 with _ | ⟨r0, rrest⟩
      · exact absurd hres hne
      · have hfold := foldl_add_song_fields now rrest
        refine ⟨?_, ?_, ?_⟩ <;>
          simp [play_next_in_queue, EnhancedMusicQueue.get_next_song, hq, helig,
            hlast, hres, hfold, add_song_queue, add_song_failures,
            add_song_current]

/-- Witness for c7_provider_error_isolation at the concrete session and
oracles producing a non-empty recommendation list. -/
theorem c7_provider_error_isolation_witness :
    (play_next_in_queue wMqEligible 100 false wSpRecs wYtSearch true
      wYtMulti).1.autoplay_failures = 0 ∧
    (play_next_in_queue wMqEligible 100 false wSpRecs wYtSearch true
      wYtMulti).1.current =
      (get_autoplay_recommendations wSongA wMqEligible.autoplay_history false
        wSpRecs wYtSearch true wYtMulti 3 300).1.head? ∧
    (play_next_in_queue wMqEligible 100 false wSpRecs wYtSearch true
      wYtMulti).1.queue =
      (get_autoplay_recommendations wSongA wMqEligible.autoplay_history false
        wSpRecs wYtSearch true wYtMulti 3 300).1.tail :=
  (c7_provider_error_isolation.2 wMqEligible 100 false wSpRecs wYtSearch true
    wYtMulti wSongA rfl (by decide) (by decide)).2 (by decide)

theorem foldl_pushRing_le (cap : Nat) (hcap : 0 < cap) :
    ∀ (recs : List Song) (hist : List Song), hist.length ≤ cap →
      (recs.foldl (fun h s => pushRing cap h s) hist).length ≤ cap := by
  intro recs
  induction recs with
  | nil => intro hist hle; simpa using hle
  | cons r rs ih =>
    intro hist hle
    simp only [List.foldl_cons]
    exact ih _ (pushRing_length_le cap hcap hist r hle)

theorem connectBody_rings (target : Nat) (a b : Bool) (mq : EnhancedMusicQueue) :
    (connectBody target a b mq).2.last_played_songs = mq.last_played_songs ∧
    (connectBody target a b mq).2.autoplay_history = mq.autoplay_history := by
  unfold connectBody
  rcases hvc : mq.voice_client with _ | vc <;> simp [hvc]
  · rcases b <;> simp_all [EnhancedMusicQueue.reset_connection_failures]
  · rcases hc : vc.connected <;> simp [hc]
    · rcases b <;> simp_all [EnhancedMusicQueue.reset_connection_failures]
    · rcases hch : decide (vc.channel = target) with _ | _ <;>
        rcases a <;> simp_all [EnhancedMusicQueue.reset_connection_failures]

theorem connect_rings (target : Nat) (moveO connO : Nat → Bool)
    (mq : EnhancedMusicQueue) :
    (connect_to_voice_channel target moveO connO mq).2.2.last_played_songs =
      mq.last_played_songs ∧
    (connect_to_voice_channel target moveO connO mq).2.2.autoplay_history =
      mq.autoplay_history := by
  rcases h0 : connectBody target (moveO 0) (connO 0) mq with ⟨ok0, m1⟩
  have hr0 := connectBody_rings target (moveO 0) (connO 0) mq
  rw [h0] at hr0
  cases ok0 with
  | true =>
    simp [connect_to_voice_channel, h0]
    exact ⟨hr0.1, hr0.2⟩
  | false =>
    rcases h1 : connectBody target (moveO 1) (connO 1)
        { m1.increment_connection_failures with voice_client := none } with ⟨ok1, m2⟩
    have hr1 := connectBody_rings target (moveO 1) (connO 1)
      { m1.increment_connection_failures with voice_client := none }
    rw [h1] at hr1
    simp [EnhancedMusicQueue.increment_connection_failures] at hr1
    cases ok1 with
    | true =>
      have hgoal : (connect_to_voice_channel target moveO connO mq).2.2 = m2 := by
        simp [connect_to_voice_channel, h0, h1]
      rw [hgoal]
      exact ⟨hr1.1.trans hr0.1, hr1.2.trans hr0.2⟩
    | false =>
      rcases h2 : connectBody target (moveO 2) (connO 2)
          { m2.increment_connection_failures with voice_client := none } with ⟨ok2, m3⟩
      have hr2 := connectBody_rings target (moveO 2) (connO 2)
        { m2.increment_connection_failures with voice_client := none }
      rw [h2] at hr2
      simp [EnhancedMusicQueue.increment_connection_failures] at hr2
      cases ok2 with
      | true =>
        have hgoal : (connect_to_voice_channel target moveO connO mq).2.2 = m3 := by
          simp [connect_to_voice_channel, h0, h1, h2]
        rw [hgoal]
        exact ⟨hr2.1.trans (hr1.1.trans hr0.1), hr2.2.trans (hr1.2.trans hr0.2)⟩
      | false =>
        have hgoal : (connect_to_voice_channel target moveO connO mq).2.2 =
            { m3.increment_connection_failures with voice_client := none } := by
          simp [connect_to_voice_channel, h0, h1, h2]
        rw [hgoal]
        simp only [EnhancedMusicQueue.increment_connection_failures]
        exact ⟨hr2.1.trans (hr1.1.trans hr0.1), hr2.2.trans (hr1.2.trans hr0.2)⟩

theorem gar_snd (last : Song) (history : List Song) (spAvail : Bool)
    (spRecs : Except Unit (List SpTrack)) (ytSearch : Str → Option Str)
    (ytdlAvail : Bool) (ytMulti : Str → Nat → Except Unit (List YtResult))
    (maxSongs maxDur : Nat) :
    (get_autoplay_recommendations last history spAvail spRecs ytSearch
      ytdlAvail ytMulti maxSongs maxDur).2 =
    (get_autoplay_recommendations last history spAvail spRecs ytSearch
      ytdlAvail ytMulti maxSongs maxDur).1.foldl
        (fun h s => pushRing 20 h s) history := rfl

theorem play_next_in_queue_rings (mq : EnhancedMusicQueue) (now : ℤ)
    (spAvail : Bool) (spRecs : Except Unit (List SpTrack))
    (ytSearch : Str → Option Str) (ytdlAvail : Bool)
    (ytMulti : Str → Nat → Except Unit (List YtResult))
    (h5 : mq.last_played_songs.length ≤ 5)
    (h20 : mq.autoplay_history.length ≤ 20) :
    (play_next_in_queue mq now spAvail spRecs ytSearch ytdlAvail
      ytMulti).1.last_played_songs.length ≤ 5 ∧
    (play_next_in_queue mq now spAvail spRecs ytSearch ytdlAvail
      ytMulti).1.autoplay_history.length ≤ 20 := by
  rcases hq : mq.queue with _ | ⟨s, rest⟩
  case cons =>
    refine ⟨?_, ?_⟩ <;>
      simpa [play_next_in_queue, EnhancedMusicQueue.get_next_song, hq] using
        (by assumption)
  case nil =>
    by_cases helig :
        autoplayEligible { mq with queue := [], current := none } now = true
    · rcases hlast : mq.last_played_songs.getLast? with _ | lastSong
      · refine ⟨?_, ?_⟩ <;>
          simpa [play_next_in_queue, EnhancedMusicQueue.get_next_song, hq,
            helig, hlast] using (by assumption)
      · have hhist : (get_autoplay_recommendations lastSong mq.autoplay_history
            spAvail spRecs ytSearch ytdlAvail ytMulti 3 300).2.length ≤ 20 := by
          rw [gar_snd]
          exact foldl_pushRing_le 20 (by omega) _ mq.autoplay_history h20
        rcases hres : (get_autoplay_recommendations lastSong mq.autoplay_history
            spAvail spRecs ytSearch ytdlAvail ytMulti 3 300).1 with _ | ⟨r0, rrest⟩
        · refine ⟨?_, ?_⟩ <;>
            simp [play_next_in_queue, EnhancedMusicQueue.get_next_song, hq,
              helig, hlast, hres] <;> first
              | exact h5
              | exact hhist
        · have hfold := foldl_add_song_fields now rrest
          refine ⟨?_, ?_⟩ <;>
            simp [play_next_in_queue, EnhancedMusicQueue.get_next_song, hq,
              helig, hlast, hres, hfold, add_song_queue] <;> first
              | simpa [EnhancedMusicQueue.add_song] using h5
              | simpa [EnhancedMusicQueue.add_song] using hhist
    · have helig' :
          autoplayEligible { mq with queue := [], current := none } now = false := by
        cases h : autoplayEligible { mq with queue := [], current := none } now
        · rfl
        · exact absurd h helig
      refine ⟨?_, ?_⟩ <;>
        simpa [play_next_in_queue, EnhancedMusicQueue.get_next_song, hq, helig']
          using (by assumption)

/-- C6: the recent-history ring (last_played_songs, maxlen 5) and the
autoplay_history ring (maxlen 20) never exceed their capacities: the bounds
hold initially and are preserved by every modelled state-mutating operation;
and an append to a ring at capacity evicts exactly the oldest entry, keeping
all newer entries in order followed by the new one. -/
theorem c6_ring_bounds :
    (∀ mq mq' : EnhancedMusicQueue, ringsOk mq → QueueStep mq mq' → ringsOk mq') ∧
    (∀ (xs : List Song) (x : Song), xs.length = 5 →
      pushRing 5 xs x = xs.drop 1 ++ [x]) ∧
    (∀ (xs : List Song) (x : Song), xs.length = 20 →
      pushRing 20 xs x = xs.drop 1 ++ [x]) ∧
    (∀ t : ℤ, ringsOk (EnhancedMusicQueue.init t)) := by
  refine ⟨?_, fun xs x h => pushRing_at_cap 5 xs x h,
    fun xs x h => pushRing_at_cap 20 xs x h,
    fun t => ⟨by simp [EnhancedMusicQueue.init], by simp [EnhancedMusicQueue.init]⟩⟩
  intro mq mq' hok hstep
  obtain ⟨h5, h20⟩ := hok
  cases hstep with
  | addSong s t =>
    exact ⟨by simpa [EnhancedMusicQueue.add_song] using h5,
      by simpa [EnhancedMusicQueue.add_song] using h20⟩
  | getNext =>
    rcases hq : mq.queue with _ | ⟨s, rest⟩
    · exact ⟨by simpa [EnhancedMusicQueue.get_next_song, hq] using h5,
        by simpa [EnhancedMusicQueue.get_next_song, hq] using h20⟩
    · exact ⟨by simpa [EnhancedMusicQueue.get_next_song, hq] using h5,
        by simpa [EnhancedMusicQueue.get_next_song, hq] using h20⟩
  | clearQ t =>
    exact ⟨by simpa [EnhancedMusicQueue.clear_queue] using h5,
      by simpa [EnhancedMusicQueue.clear_queue] using h20⟩
  | resetCF =>
    exact ⟨by simpa [EnhancedMusicQueue.reset_connection_failures] using h5,
      by simpa [EnhancedMusicQueue.reset_connection_failures] using h20⟩
  | incCF =>
    exact ⟨by simpa [EnhancedMusicQueue.increment_connection_failures] using h5,
      by simpa [EnhancedMusicQueue.increment_connection_failures] using h20⟩
  | afterPlay =>
    rcases hc : mq.current with _ | s
    · exact ⟨by simpa [after_playing, hc] using h5,
        by simpa [after_playing, hc] using h20⟩
    · refine ⟨?_, by simpa [after_playing, hc] using h20⟩
      simpa [after_playing, hc] using
        pushRing_length_le 5 (by omega) mq.last_played_songs s h5
  | connect target moveO connO =>
    have hr := connect_rings target moveO connO mq
    exact ⟨by rw [hr.1]; exact h5, by rw [hr.2]; exact h20⟩
  | nextInQueue now spAvail spRecs ytSearch ytdlAvail ytMulti =>
    exact play_next_in_queue_rings mq now spAvail spRecs ytSearch ytdlAvail
      ytMulti h5 h20

/-- Witness for c6_ring_bounds: one concrete step preserving the bounds, and
the eviction equation at capacity 5. -/
theorem c6_ring_bounds_witness :
    ringsOk (wMqEligible.add_song wSongB 0) ∧
    pushRing 5 [wSongA, wSongA, wSongA, wSongA, wSongA] wSongB =
      [wSongA, wSongA, wSongA, wSongA, wSongA].drop 1 ++ [wSongB] :=
  ⟨c6_ring_bounds.1 wMqEligible (wMqEligible.add_song wSongB 0)
      ⟨by decide, by decide⟩ (QueueStep.addSong wMqEligible wSongB 0),
   c6_ring_bounds.2.1 [wSongA, wSongA, wSongA, wSongA, wSongA] wSongB (by decide)⟩

/-- C8: with an active stream, a requested volume outside 0-200 is rejected
and the gain factor is left unchanged; any v inside 0-200 is accepted and sets
the gain to exactly v / 100.0 — in particular volume 0 sets gain 0.0 (mute)
and volume 100 sets unity gain 1.0. -/
theorem c8_volume_range (gain : ℚ) (v : Int) :
    ((v < 0 ∨ 200 < v) →
      volume true gain (some v) = (VolumeOutcome.rejected, gain)) ∧
    (0 ≤ v → v ≤ 200 →
      volume true gain (some v) = (VolumeOutcome.accepted, (v : ℚ) / 100)) ∧
    volume true gain (some 0) = (VolumeOutcome.accepted, 0) ∧
    volume true gain (some 100) = (VolumeOutcome.accepted, 1) := by
  refine ⟨?_, ?_, ?_, ?_⟩
  · intro h
    simp [volume, h]
  · intro h1 h2
    have hno : ¬ (v < 0 ∨ v > 200) := by omega
    simp [volume, hno]
  · norm_num [volume]
  · norm_num [volume]

/-- Witness for c8_volume_range at concrete gain 1/2 and volumes 250, 50, 0
and 100. -/
theorem c8_volume_range_witness :
    volume true (1 / 2) (some 250) = (VolumeOutcome.rejected, 1 / 2) ∧
    volume true (1 / 2) (some 50) = (VolumeOutcome.accepted, (50 : ℚ) / 100) ∧
    volume true (1 / 2) (some 0) = (VolumeOutcome.accepted, 0) ∧
    volume true (1 / 2) (some 100) = (VolumeOutcome.accepted, 1) :=
  ⟨(c8_volume_range (1 / 2) 250).1 (Or.inr (by norm_num)),
   (c8_volume_range (1 / 2) 50).2.1 (by norm_num) (by norm_num),
   (c8_volume_range (1 / 2) 0).2.2.1,
   (c8_volume_range (1 / 2) 100).2.2.2⟩

/-- Counterexample to C9 as stated: the default RetryConfig is NOT constructed
per call site and IS shared across invocations — two successive calls of
retry_async using the default both receive the same reference (allocated once
at module load), and after both calls the heap still holds exactly one
RetryConfig object, where per-call-site construction would have allocated one
per call. -/
theorem c9_retry_config_counterexample :
    (twoDefaultCalls failOracle failOracle).1.1 =
      (twoDefaultCalls failOracle failOracle).1.2 ∧
    (twoDefaultCalls failOracle failOracle).2.configs.length = 1 :=
  ⟨rfl, rfl⟩

/-- C9 (amended): the default RetryConfig object is allocated once at function
definition time and shared by every defaulted invocation, but retry_async
never mutates any field of the config it is given — the heap after a call is
the heap before it — so two successive calls using the default observe the
identical bundle: max_attempts 3, delay 1.0, backoff 2.0. -/
theorem c9_retry_config_immutable :
    (∀ (h : PyHeap) (ref : Nat) (oracle : Nat → Except Unit Nat),
      (retry_async h ref oracle).2 = h ∧
      readConfig (retry_async h ref oracle).2 ref = readConfig h ref) ∧
    (∀ (oa ob : Nat → Except Unit Nat),
      readConfig (twoDefaultCalls oa ob).2 (twoDefaultCalls oa ob).1.1 =
        RetryConfig.defaults ∧
      readConfig (twoDefaultCalls oa ob).2 (twoDefaultCalls oa ob).1.2 =
        RetryConfig.defaults) :=
  ⟨fun _ _ _ => ⟨rfl, rfl⟩, fun _ _ => ⟨rfl, rfl⟩⟩

/-- C10: get_next_song mutates only the queue — current, is_playing,
voice_client, last_activity, the failure counters, the history rings and the
autoplay timestamps are all left unchanged — while last_activity is refreshed
exactly by add_song and clear_queue (set to the time.time() value they read);
is_inactive compares now - last_activity against the threshold.  Consequently
the sweeper's 15-minute check measures time since the last enqueue or clear,
not playback: in the concrete trace two songs are enqueued at time 0 and
dequeued (played) afterwards, yet at time 901s the session counts as inactive
for the sweeper's timeout_minutes = 15. -/
theorem c10_activity_frame :
    (∀ mq : EnhancedMusicQueue,
      (mq.get_next_song).2.current = mq.current ∧
      (mq.get_next_song).2.is_playing = mq.is_playing ∧
      (mq.get_next_song).2.voice_client = mq.voice_client ∧
      (mq.get_next_song).2.last_activity = mq.last_activity ∧
      (mq.get_next_song).2.connection_failures = mq.connection_failures ∧
      (mq.get_next_song).2.autoplay_enabled = mq.autoplay_enabled ∧
      (mq.get_next_song).2.last_played_songs = mq.last_played_songs ∧
      (mq.get_next_song).2.autoplay_history = mq.autoplay_history ∧
      (mq.get_next_song).2.autoplay_failures = mq.autoplay_failures ∧
      (mq.get_next_song).2.last_autoplay_attempt = mq.last_autoplay_attempt) ∧
    (∀ (mq : EnhancedMusicQueue) (s : Song) (t : ℤ),
      (mq.add_song s t).last_activity = t ∧
      (mq.add_song s t).queue = mq.queue ++ [s] ∧
      (mq.add_song s t).current = mq.current ∧
      (mq.add_song s t).is_playing = mq.is_playing ∧
      (mq.add_song s t).last_played_songs = mq.last_played_songs ∧
      (mq.add_song s t).autoplay_history = mq.autoplay_history) ∧
    (∀ (mq : EnhancedMusicQueue) (t : ℤ),
      (mq.clear_queue t).last_activity = t ∧ (mq.clear_queue t).queue = []) ∧
    (∀ (mq : EnhancedMusicQueue) (tm : Nat) (now : ℤ),
      mq.is_inactive tm now = decide (now - mq.last_activity > (tm * 60 : ℤ))) ∧
    (let m0 := ((EnhancedMusicQueue.init 0).add_song wSongA 0).add_song wSongB 0
     let d1 := m0.get_next_song
     let d2 := d1.2.get_next_song
     d1.1 = some wSongA ∧ d2.1 = some wSongB ∧
     d2.2.is_inactive 15 901 = true) := by
  refine ⟨?_, fun mq s t => ⟨rfl, rfl, rfl, rfl, rfl, rfl⟩,
    fun mq t => ⟨rfl, rfl⟩, fun mq tm now => rfl, by decide⟩
  intro mq
  rcases hq : mq.queue with _ | ⟨s, rest⟩ <;>
    refine ⟨?_, ?_, ?_, ?_, ?_, ?_, ?_, ?_, ?_, ?_⟩ <;>
    simp [EnhancedMusicQueue.get_next_song, hq]
